import Mathlib

/-!
Shallow embedding of the aou_deid rule-compilation engine
(`rules.py`, `press.py`, `parser.py`): the dialect catalog, the four rule
handlers, the reference resolver, the validation layer and the SQL
assembler, together with theorems settling the frozen claims about them.

Python dictionaries with a fixed shape are embedded as structures whose
optional fields model key presence; dictionaries with open key sets are
embedded as association lists.  Python exceptions are embedded as
`Except PyErr`; a handler that can raise returns `Except`.
-/

/-- Python exception kinds raised by the embedded code paths. -/
inductive PyErr where
  | indexError
  | attributeError
  | keyError
  | valueError
  | nameError
deriving DecidableEq, Repr

/-- Python `needle in hay` on strings: substring containment. -/
def strIn (needle hay : String) : Bool :=
  let n := needle.toList
  let h := hay.toList
  (List.range (h.length + 1)).any (fun i => n.isPrefixOf (h.drop i))

/-- Python `str.isnumeric` restricted to ASCII digits (how the engine uses it:
the `into` outcome of a generalize rule is quoted unless it is a number). -/
def isnumeric (s : String) : Bool :=
  s != "" && s.toList.all Char.isDigit

/-- Python `str.replace` on character lists: leftmost non-overlapping
occurrences of `n` are replaced by `r`.  The fuel argument (instantiated
with the input length) makes the recursion structural. -/
def replFuel (n r : List Char) : Nat → List Char → List Char
  | 0, s => s
  | _, [] => []
  | fuel + 1, c :: rest =>
    if n ≠ [] ∧ n.isPrefixOf (c :: rest) then
      r ++ replFuel n r fuel ((c :: rest).drop n.length)
    else c :: replFuel n r fuel rest

/-- Python `s.replace(old, new)` for a non-empty `old`. -/
def pyReplace (s old new : String) : String :=
  ⟨replFuel old.toList new.toList s.toList.length s.toList⟩

/-- Python `str.split(sep)` on character lists, fuel-structural. -/
def splitFuel (sep : List Char) : Nat → List Char → List (List Char)
  | _, [] => [[]]
  | 0, s => [s]
  | fuel + 1, c :: rest =>
    if sep ≠ [] ∧ sep.isPrefixOf (c :: rest) then
      [] :: splitFuel sep fuel ((c :: rest).drop sep.length)
    else
      match splitFuel sep fuel rest with
      | [] => [[c]]
      | h :: t => (c :: h) :: t

/-- Python `s.split(sep)` for a non-empty separator: `"".split(sep) = [""]`,
and a separator occurrence at either end yields an empty component. -/
def pySplit (s sep : String) : List String :=
  (splitFuel sep.toList s.toList.length s.toList).map (fun l => ⟨l⟩)

/-- Python `s.startswith(p)`. -/
def pyStartsWith (s p : String) : Bool :=
  p.toList.isPrefixOf s.toList

/-- `cond_syntax` entry of a store profile in `Rules.__init__.store_syntax`:
the conditional-expression tokens of one dialect. -/
structure CondTokens where
  ifTok : String
  openTok : String
  thenTok : String
  elseTok : String
  closeTok : String
deriving DecidableEq, Repr

/-- One entry of `Rules.__init__.store_syntax`.  `applyTemplates = none`
models a profile without an `'apply'` key (postgresql). -/
structure StoreProfile where
  applyTemplates : Option (List (String × String)) := none
  cond : CondTokens
  shiftTemplates : Option (List (String × String)) := none
  randomExpr : String := ""
deriving DecidableEq, Repr

/-- `Rules.__init__.store_syntax`: the dialect catalog, verbatim from
`rules.py` lines 44-87. -/
def storeProfiles : List (String × StoreProfile) :=
  [ ("sqlite",
     { applyTemplates := some
         [ ("REGEXP", "LOWER(:FIELD) REGEXP LOWER(':VAR')"),
           ("COUNT", "SELECT COUNT(DISTINCT :FIELD) FROM :TABLE WHERE :KEY=:VALUE") ],
       cond := { ifTok := "CASE WHEN", openTok := "", thenTok := "THEN",
                 elseTok := "ELSE", closeTok := "END" },
       randomExpr := "random() % 365 " }),
    ("bigquery",
     { applyTemplates := some
         [ ("REGEXP", "REGEXP_CONTAINS (LOWER(:FIELD), LOWER(':VAR'))"),
           ("COUNT", "SELECT COUNT (DISTINCT :KEY) FROM :TABLE WHERE :KEY=:VALUE") ],
       cond := { ifTok := "IF", openTok := "(", thenTok := ", ",
                 elseTok := ", ", closeTok := ")" },
       randomExpr := "CAST( (RAND() * 364) + 1 AS INT64)" }),
    ("postgresql",
     { applyTemplates := none,
       cond := { ifTok := "CASE WHEN", openTok := "", thenTok := "THEN",
                 elseTok := "ELSE", closeTok := "END" },
       shiftTemplates := some
         [ ("date", "FIELD INTERVAL 'SHIFT DAY' "),
           ("datetime", "FIELD INTERVAL 'SHIFT DAY'") ],
       randomExpr := "(random() * 364) + 1 :: int" }) ]

/-- `label.split('.')[1]` as it appears in the handlers' `self.log` calls:
returns the second dot-separated component, raising `IndexError` when the
label holds no dot. -/
def logLabel (label : String) : Except PyErr String :=
  match (pySplit label ".").get? 1 with
  | some s => Except.ok s
  | none => Except.error PyErr.indexError

/-- One value-condition dictionary of a generalize/suppress rule.  Optional
fields model key presence (`'apply' in rule`, `'qualifier' in rule`,
`'on' in rule` are tested by the source). -/
structure GRule where
  applyFn : Option String := none
  qualifier : Option String := none
  values : List String := []
  into : Option String := none
  onVals : Option (List String) := none
deriving DecidableEq, Repr

/-- The resolved keyword arguments consumed by `Deid.generalize`. -/
structure GArgs where
  fields : Option (List String) := none
  value_field : String := ""
  label : String := ""
  rules : List GRule := []
  store : String := "sqlite"
  filterF : Option String := none
  intoA : Option String := none
  table : String := ""
  key_field : String := ""
  key_row : Option String := none
  onA : Option String := none
deriving DecidableEq, Repr

/-- A field projection produced by a handler: the dictionary
`{"name": .., "apply": .., "label": ..}` with the optional `'on'` marker. -/
structure Projection where
  name : String
  applyExpr : String
  label : String
  onV : Option String := none
deriving DecidableEq, Repr

/-- The conditional-branch string built by one iteration of the rule loop in
`Deid.generalize` (rules.py lines 192-268), without the trailing ELSE
decision: the `IF OPEN regex THEN into` element appended to `cond`. -/
def genBranchStr (synx : CondTokens) (prof : StoreProfile) (args : GArgs)
    (name : String) (rule : GRule) : String :=
  let qualifier := rule.qualifier.getD ""
  match rule.applyFn with
  | some fn =>
    let fillter := args.filterF.getD name
    let regex :=
      match prof.applyTemplates with
      | none =>
        fn ++ "(" ++ fillter ++ " , '" ++ String.intercalate "|" rule.values
          ++ "') " ++ qualifier
      | some templates =>
        let template := (List.lookup fn templates).getD ""
        let regex := pyReplace (pyReplace template ":FIELD" fillter) ":FN" fn
        let regex :=
          if strIn ":VAR" template then
            pyReplace regex ":VAR" (String.intercalate "|" rule.values)
          else regex
        if fn == "COUNT" || fn == "AVG" || fn == "SUM" then
          let regex := pyReplace (pyReplace (pyReplace regex ":TABLE" args.table)
            ":KEY" args.key_field) ":VALUE" args.value_field
          let regex :=
            match rule.onVals, args.key_row with
            | some onv, some kr =>
              regex ++ (if rule.qualifier.isSome then " AND " else " WHERE ")
                ++ kr ++ " IN ('" ++ String.intercalate "', '" onv ++ "')"
            | _, _ => regex
          String.intercalate " " ["(", regex, ")", qualifier]
        else String.intercalate " " [regex, qualifier]
    let into0 := args.intoA.getD (rule.into.getD "")
    let into1 := if isnumeric into0 then into0 else "'" ++ into0 ++ "'"
    String.intercalate " " [synx.ifTok, synx.openTok, regex, synx.thenTok, into1]
  | none =>
    let fillter := args.filterF.getD name
    let vals := "('" ++ String.intercalate "','" rule.values ++ "')"
    let into0 := args.intoA.getD (rule.into.getD "")
    let regex := String.intercalate " " [fillter, qualifier, vals]
    let into1 := if isnumeric into0 then into0 else "'" ++ into0 ++ "'"
    String.intercalate " " [synx.ifTok, synx.openTok, regex, synx.thenTok, into1]

/-- One iteration of the rule loop of `Deid.generalize`: both condition kinds
first call `self.log(..., label=label.split('.')[1], ...)`, which raises
`IndexError` on a dotless label; the branch string itself is pure. -/
def genBranch (synx : CondTokens) (prof : StoreProfile) (args : GArgs)
    (name : String) (rule : GRule) : Except PyErr String := do
  let _ ← logLabel args.label
  Except.ok (genBranchStr synx prof args name rule)

/-- The rule loop of `Deid.generalize` building `cond` for one field:
after each branch, `if rules.index(rule) % 2 == 0 or rules.index(rule) % 3:`
appends the dialect's ELSE token (rules.py lines 246-247 and 270-271).
`allRules` is the full list against which `rules.index` resolves. -/
def genCondLoop (synx : CondTokens) (prof : StoreProfile) (args : GArgs)
    (name : String) (allRules : List GRule) : List GRule → Except PyErr (List String)
  | [] => Except.ok []
  | r :: rest => do
    let b ← genBranch synx prof args name r
    let tail ← genCondLoop synx prof args name allRules rest
    let i := allRules.indexOf r
    Except.ok ((b :: (if i % 2 == 0 || i % 3 != 0 then [synx.elseTok] else [])) ++ tail)

/-- Per-field tail of `Deid.generalize` (rules.py lines 273-283): close the
chain with one CLOSE token per element containing the IF token, alias back
to the field name, and attach `'on'` when the citation carries it. -/
def genField (synx : CondTokens) (prof : StoreProfile) (args : GArgs)
    (name : String) : Except PyErr Projection := do
  let cond ← genCondLoop synx prof args name args.rules args.rules
  let cond := cond ++ [name]
  let cnt := (cond.filter (fun xchar => strIn synx.ifTok xchar)).length
  let cond := cond ++ List.replicate cnt synx.closeTok
  let cond := cond ++ ["AS", name]
  Except.ok { name := name, applyExpr := String.intercalate " " cond,
              label := args.label, onV := args.onA }

/-- `Deid.generalize`.  Line 186 `self.store_syntax.get(store_id, 'sqlite')`
returns the *string* `'sqlite'` for an uncataloged store, and the ensuing
`.get('cond_syntax', {})` on a string raises `AttributeError`. -/
def generalize (args : GArgs) : Except PyErr (List Projection) := do
  let fields := args.fields.getD [args.value_field]
  match List.lookup args.store storeProfiles with
  | none => Except.error PyErr.attributeError
  | some prof => fields.mapM (fun name => genField prof.cond prof args name)

/-- The qualifier-inversion dictionary `apply_filter` built inside
`Deid.suppress` (rules.py lines 343-350); indexing it with an unlisted
qualifier raises `KeyError`. -/
def apply_filter (q : String) : Except PyErr String :=
  if q == "IN" then Except.ok "NOT IN"
  else if q == "=" then Except.ok "<>"
  else if q == "NOT IN" then Except.ok "IN"
  else if q == "<>" then Except.ok "="
  else if q == "" then Except.ok "IS FALSE"
  else if q == "TRUE" then Except.ok "IS FALSE"
  else Except.error PyErr.keyError

/-- A `{"filter": .., "label": ..}` suppression entry appended to
`cache['suppress']['FILTERS']`. -/
structure SuppressionExp where
  filter : String
  label : String
deriving DecidableEq, Repr

/-- The resolved keyword arguments consumed by `Deid.suppress`. -/
structure SArgs where
  rules : List GRule := []
  label : String := ""
  fields : List String := []
  store : String := ""
  onA : Option String := none
  qualifier : String := ""
  filterF : Option String := none
deriving DecidableEq, Repr

/-- Append to `cache['suppress']['FILTERS']`, creating the entry on
`KeyError` (rules.py lines 371-377); `none` models a cache still missing
the `FILTERS` path. -/
def appendFilter (filters : Option (List SuppressionExp)) (e : SuppressionExp) :
    Option (List SuppressionExp) :=
  some ((filters.getD []) ++ [e])

/-- The row-mode loop of `Deid.suppress` (rules.py lines 341-377).  Each
iteration rebuilds `suppression_exp` in the function-template path (qualifier
appended *unchanged*) or the inline path (qualifier defaulted to IN, then
inverted through `apply_filter`); when neither path fires, the previous
iteration's `suppression_exp` is appended again, and on the first iteration
the name is unbound (`NameError`). -/
def suppressRows (tmpl : List (String × String)) (args : SArgs) :
    List GRule → Option SuppressionExp → Option (List SuppressionExp) →
    Except PyErr (Option (List SuppressionExp))
  | [], _, filters => Except.ok filters
  | r :: rest, last, filters => do
    let qualifier := args.qualifier
    let fn := r.applyFn.getD ""
    let expOpt ←
      match List.lookup fn tmpl with
      | some template => do
        let key_field := args.filterF.getD (args.onA.getD "")
        let expression := pyReplace (pyReplace (pyReplace template ":VAR"
          (String.intercalate "|" r.values)) ":FN" fn)
          ":FIELD" key_field
        Except.ok (some { filter := expression ++ " " ++ qualifier,
                          label := args.label })
      | none =>
        match args.onA with
        | some onv => do
          let q1 := if qualifier == "" then "IN" else qualifier
          let q2 ← apply_filter q1
          let expression := String.intercalate " "
            [onv, q2, "('" ++ String.intercalate "', '" r.values ++ "')"]
          Except.ok (some { filter := expression, label := args.label })
        | none => Except.ok last
    match expOpt with
    | none => Except.error PyErr.nameError
    | some e => suppressRows tmpl args rest (some e) (appendFilter filters e)

/-- The column-mode branch of `Deid.suppress` (rules.py lines 305-332):
nullify each field (`NULL AS f` when the name contains `_id`, else
`'' AS f`); with a rule list, only fields named in some rule's values are
emitted; the trailing `self.log` call splits the label on a dot. -/
def suppressCols (args : SArgs) : Except PyErr (List Projection) := do
  let outs ← args.fields.mapM (fun name => do
    if args.rules.isEmpty then do
      let value := if strIn "_id" name then "NULL AS " ++ name
                   else "'' AS " ++ name
      let _ ← logLabel args.label
      Except.ok [({ name := name, applyExpr := value,
                    label := args.label } : Projection)]
    else
      Except.ok (args.rules.foldl (fun acc r =>
        if name ∈ r.values then
          acc ++ [({ name := name,
                     applyExpr := (if strIn "_id" name then "NULL AS " ++ name
                                   else "'' AS " ++ name),
                     label := args.label } : Projection)]
        else acc) []))
  let _ ← logLabel args.label
  Except.ok outs.flatten

/-- `self.store_syntax.get(store_id, {}).get(APPLY, {})` in `Deid.suppress`
(rules.py line 302): the dialect's function templates, empty both for an
uncataloged store and for a profile without an `'apply'` key. -/
def applyFnTable (store : String) : List (String × String) :=
  match List.lookup store storeProfiles with
  | some prof => prof.applyTemplates.getD []
  | none => []

/-- `Deid.suppress`: column mode when `fields` is non-empty and `'on'` is
absent, row mode otherwise.  Returns the projections together with the
updated `cache['suppress']['FILTERS']`. -/
def suppress (filters : Option (List SuppressionExp)) (args : SArgs) :
    Except PyErr (List Projection × Option (List SuppressionExp)) := do
  let tmpl : List (String × String) := applyFnTable args.store
  if !args.fields.isEmpty && args.onA.isNone then do
    let out ← suppressCols args
    Except.ok (out, filters)
  else do
    let filtersOut ← suppressRows tmpl args args.rules none filters
    Except.ok ([], filtersOut)

/-- The resolved keyword arguments consumed by `Deid.shift`. -/
structure ShArgs where
  label : String := ""
  fields : List String := []
  rules : String := ""
  onA : Option String := none
deriving DecidableEq, Repr

/-- `Deid.shift` (rules.py lines 382-415): a no-op unless
`cache['suppress']['FILTERS']` is non-empty; only the first field is shifted
(the loop breaks after one iteration); with `'on'` present the expression is
wrapped in a CAST with the `AS` suffix relocated outside. -/
def shift (filters : Option (List SuppressionExp)) (args : ShArgs) :
    List Projection :=
  if (filters.getD []).isEmpty then []
  else
    match args.fields with
    | [] => []
    | name :: _ =>
      let applied := pyReplace args.rules ":FIELD" name
      match args.onA with
      | none => [{ name := name, applyExpr := applied, label := args.label }]
      | some onv =>
        let xchar := if strIn " AS " applied then " AS " else " as "
        let suffix := xchar ++ ((pySplit applied xchar).getLastD "")
        let applied2 := String.intercalate " "
          ["CAST(", pyReplace applied suffix "", "AS STRING ) ", suffix]
        [{ name := name, applyExpr := applied2, label := args.label,
           onV := some onv }]

/-- The resolved keyword arguments consumed by `Deid.compute`. -/
structure CArgs where
  fields : Option (List String) := none
  key_field : String := ""
  value_field : String := ""
  label : String := ""
  rules : String := ""
  table : String := ""
deriving DecidableEq, Repr

/-- `Deid.compute` (rules.py lines 417-441): pure template substitution on
the first field; `fields[0]` on an explicitly empty field list raises. -/
def compute (args : CArgs) : Except PyErr (List Projection) :=
  let fields := args.fields.getD [args.key_field]
  match fields with
  | [] => Except.error PyErr.indexError
  | f0 :: _ =>
    let st := pyReplace (pyReplace (pyReplace (pyReplace args.rules ":FIELD" f0)
      ":value_field" args.value_field)
      ":key_field" args.key_field) ":table" args.table
    Except.ok [{ name := f0, applyExpr := st, label := args.label }]

/-- The state of a `Press` object as the assembler reads it: input dataset
and table names, the schema column list returned by `self.get(limit=1)`,
and `deid_rules['suppress']['FILTERS']` (both keys are guaranteed by
`Press.__init__`). -/
structure SPress where
  idataset : String
  tablename : String
  columns : List String
  filters : List SuppressionExp
deriving DecidableEq, Repr

/-- `Press.get_tablename`. -/
def get_tablename (press : SPress) : String :=
  if press.idataset != "" then press.idataset ++ "." ++ press.tablename
  else press.tablename

/-- The field-substitution loops of `Press.to_sql` (press.py lines 287-295):
for each rule kind in order, each projection whose label contains the kind
and whose name still occurs in the field list overwrites, in place, the
first slot equal to that name. -/
def toSqlFields (columns : List String) (info : List Projection) : List String :=
  ["generalize", "suppress", "shift", "compute"].foldl (fun fields rid =>
    info.foldl (fun fields row =>
      if !(strIn rid row.label) || !(fields.contains row.name) then fields
      else fields.set (fields.indexOf row.name) row.applyExpr) fields) columns

/-- The WHERE-clause loop of `Press.to_sql` (press.py lines 303-308): a
filter is kept when its space-split tokens intersect the schema columns;
`AND` follows each kept filter whose first occurrence is not in the last
position of the filter list. -/
def filterClauses (columns : List String) (dfilters : List SuppressionExp) :
    List String :=
  dfilters.foldl (fun acc row =>
    if ((pySplit row.filter " ").filter (fun t => columns.contains t)).isEmpty
    then acc
    else acc ++ [row.filter] ++
      (if dfilters.indexOf row < dfilters.length - 1 then ["AND"] else [])) []

/-- `Press.to_sql` (press.py lines 277-309). -/
def to_sql (press : SPress) (info : List Projection) : String :=
  let table_name := get_tablename press
  let fields := toSqlFields press.columns info
  let sqlList := ["SELECT", String.intercalate "," fields, "FROM ", table_name]
  let sqlList := if press.filters.isEmpty then sqlList else sqlList ++ ["WHERE"]
  let sqlList := sqlList ++ filterClauses press.columns press.filters
  pyReplace (String.intercalate "\t" sqlList) ":idataset" press.idataset

/-- `np.sum([1 * ('on' in _item) for _item in p]) != 0` in `Press.do`. -/
def isMetaOf (p : List Projection) : Bool :=
  p.any (fun c => c.onV.isSome)

/-- Grouping of the meta columns by their `'on'` value in `Press.do`
(press.py lines 112-118): the keys in first-occurrence order. -/
def groupKeys (meta : List Projection) : List String :=
  meta.foldl (fun acc c =>
    let k := c.onV.getD ""
    if acc.contains k then acc else acc ++ [k]) []

/-- The columns grouped under one `'on'` value, in encounter order. -/
def groupGet (meta : List Projection) (k : String) : List Projection :=
  meta.filter (fun c => c.onV.getD "" == k)

/-- The SQL text assembled by `Press.do` (press.py lines 100-142): one plain
query for a relational table; for a meta table, one branch per `'on'`
category plus the residual branch, concatenated with UNION ALL.  With
suppression filters present the residual negates the category predicates
and joins them with `' AND '`; without filters it joins them with a single
space (`' '.join(filter_list)`, line 135). -/
def doSql (press : SPress) (p : List Projection) : String :=
  if !isMetaOf p then to_sql press p
  else
    let relational_cols := p.filter (fun c => c.onV.isNone)
    let meta_cols := p.filter (fun c => c.onV.isSome)
    let keys := groupKeys meta_cols
    let filters_exist := !press.filters.isEmpty
    let conjunction := if filters_exist then " AND " else " WHERE "
    let branches := keys.map (fun k =>
      to_sql press (groupGet meta_cols k ++ relational_cols) ++ conjunction ++ k)
    let rsql :=
      if strIn " AND " conjunction then
        to_sql press relational_cols ++ " AND " ++
          pyReplace (String.intercalate " AND " keys) " IN " " NOT IN "
      else
        to_sql press relational_cols ++ " WHERE " ++
          pyReplace (String.intercalate " " keys) " IN " " NOT IN "
    String.intercalate "\nUNION ALL\n" (branches ++ [rsql])

/-- The attributes `Press.__init__` assigns on the object (press.py lines
19-50); `deid_ruls` is not among them. -/
def pressAssignedAttrs : List String :=
  ["deid_rules", "info", "idataset", "tablename", "store", "logpath", "action"]

/-- `Press.initialize` (press.py lines 56-66).  `getResult` models
`self.get(limit=1)`: `none` is the base-class `get`, which returns Python
`None` (so `.columns` raises `AttributeError`); `some cols` is an
overriding subclass returning a real frame.  The next line reads
`self.deid_ruls`, an attribute absent from `pressAssignedAttrs`, so the
lookup raises `AttributeError`. -/
def pressInitialize (getResult : Option (List String)) : Except PyErr Unit := do
  let _columns ← match getResult with
    | some cols => Except.ok cols
    | none => Except.error PyErr.attributeError
  if "deid_ruls" ∈ pressAssignedAttrs then Except.ok ()
  else Except.error PyErr.attributeError

/-- A Python JSON-ish value as the parser and validator handle it: a string,
a list of strings, or a nested dictionary. -/
inductive Val where
  | vstr (s : String)
  | vlist (xs : List String)
  | vdict (kvs : List (String × Val))

/-- `row_rules.replace('@', '').split('.')` unpacked into two names:
`some (id, key)` on exactly two components, else the `ValueError` case. -/
def parseCite (s : String) : Option (String × String) :=
  match pySplit (pyReplace s "@" "") "." with
  | [a, b] => some (a, b)
  | _ => none

/-- `Parse.init` (parser.py lines 23-41).  The output record is seeded with
the label, then with the cached definition under `'rules'` when the citation
resolves; the copy loop `p[key] = p.get(key, row.get(key, ''))` never
overwrites a key already present.  A non-string `'rules'` value has no
`.replace`, raising `AttributeError` (only `ValueError` is caught). -/
def Parse_init (rule_id : String) (row : List (String × Val))
    (cache : List (String × List (String × Val))) :
    Except PyErr (List (String × Val)) := do
  let rrules := (List.lookup "rules" row).getD (Val.vstr "")
  let idkey ← match rrules with
    | Val.vstr s => Except.ok (parseCite s)
    | _ => Except.error PyErr.attributeError
  let label := match idkey with
    | some (i, k) => if k != "" then i ++ "." ++ k else rule_id
    | none => rule_id
  let p0 : List (String × Val) := [("label", Val.vstr label)]
  let p1 := match idkey with
    | some (i, k) =>
      if i != "" && k != "" then
        match List.lookup i cache with
        | some inner =>
          match List.lookup k inner with
          | some v => p0 ++ [("rules", v)]
          | none => p0
        | none => p0
      else p0
    | none => p0
  let p2 := row.foldl (fun p kv =>
    if (List.lookup kv.1 p).isSome then p
    else p ++ [(kv.1, (List.lookup kv.1 row).getD (Val.vstr ""))]) p1
  Except.ok p2

/-- The check `Rules.validate` performs for one configuration row (rules.py
lines 113-130): a well-formed `@id.key` citation with an `into` outcome
contributes `(_id == rule_id) and (_key in self.cache[rule_id])`; other
rows with a `rules` key contribute `1`; rows without one contribute `1`
only when `rule_id` is absent from the cache.  Malformed citations raise
`ValueError`, non-string citations `AttributeError`, and a matching `_id`
with `rule_id` missing from the cache `KeyError`. -/
def rowCheck (rule_id : String) (cache : List (String × List (String × Val)))
    (p : Bool) (row : List (String × Val)) : Except PyErr (Option Bool) :=
  match List.lookup "rules" row with
  | some rv =>
    match rv with
    | Val.vlist _ => Except.ok (some true)
    | Val.vdict _ => Except.error PyErr.attributeError
    | Val.vstr s =>
      if pyStartsWith s "@" && (List.lookup "into" row).isSome then
        match parseCite s with
        | some (i, k) =>
          if i == rule_id then
            match List.lookup rule_id cache with
            | some inner => Except.ok (some (List.lookup k inner).isSome)
            | none => Except.error PyErr.keyError
          else Except.ok (some false)
        | none => Except.error PyErr.valueError
      else Except.ok (some true)
  | none => if !p then Except.ok (some true) else Except.ok none

/-- One `q.append` step of the loop in `Rules.validate`. -/
def qStep (rule_id : String) (cache : List (String × List (String × Val)))
    (p : Bool) (acc : List Bool) (row : List (String × Val)) :
    Except PyErr (List Bool) := do
  let r ← rowCheck rule_id cache p row
  Except.ok (match r with | some b => acc ++ [b] | none => acc)

/-- `Rules.validate` (rules.py lines 105-134): all contributed checks must
hold (`sum(q) == len(q)`); the final `(p and q) or (not p and q)`
collapses to `q`. -/
def rulesValidate (rule_id : String)
    (cache : List (String × List (String × Val)))
    (entry : List (List (String × Val))) : Except PyErr Bool := do
  let p := (List.lookup rule_id cache).isSome
  let qs ← entry.foldlM (qStep rule_id cache p) ([] : List Bool)
  let q := qs.all id
  Except.ok ((p && q) || (!p && q))

/-- `Deid.validate` (rules.py lines 146-162): when `Rules.validate` accepts
the whole entry, every row is resolved through `Parse.init`; otherwise the
payload stays `None` and `Deid.apply` skips the entire rule group. -/
def deidValidate (rule_id : String)
    (cache : List (String × List (String × Val)))
    (entry : List (List (String × Val))) :
    Except PyErr (Option (List (List (String × Val)))) := do
  let ok ← rulesValidate rule_id cache entry
  if ok then do
    let argsList ← entry.mapM (fun row => Parse_init rule_id row cache)
    Except.ok (some argsList)
  else
    Except.ok none

/-- The payload `Deid.apply` receives from `Deid.validate`: `none` both when
validation rejected the entry (payload `None`) and when resolution raised. -/
def validatePayload {α : Type} (e : Except PyErr (Option α)) : Option α :=
  match e with
  | Except.ok (some l) => some l
  | _ => none

/-- Key lookup in the record `Parse.init` resolves (`none` on failure). -/
def resolvedLookup (key : String) (e : Except PyErr (List (String × Val))) :
    Option Val :=
  match e with
  | Except.ok p => List.lookup key p
  | Except.error _ => none

/-- Modelled from the spec: the ELSE-insertion rule as §4.3 and the claim
state it, on the *1-based* position of the branch in the condition list
("an ELSE token is inserted after a branch when its 1-based position in the
condition list is even, OR when the position is not a multiple of 3"). -/
def specElseRule (pos : Nat) : Bool :=
  pos % 2 == 0 || pos % 3 != 0

/-- The sqlite conditional tokens, as literal data for concrete runs. -/
def sqliteTokens : CondTokens :=
  { ifTok := "CASE WHEN", openTok := "", thenTok := "THEN",
    elseTok := "ELSE", closeTok := "END" }

/-- The sqlite store profile, as literal data for concrete runs. -/
def sqliteProfile : StoreProfile :=
  { applyTemplates := some
      [ ("REGEXP", "LOWER(:FIELD) REGEXP LOWER(':VAR')"),
        ("COUNT", "SELECT COUNT(DISTINCT :FIELD) FROM :TABLE WHERE :KEY=:VALUE") ],
    cond := sqliteTokens,
    randomExpr := "random() % 365 " }

/-- A three-condition inline generalization citation on field `race`. -/
def c1Args : GArgs :=
  { fields := some ["race"], label := "generalize.race",
    rules := [ { qualifier := some "IN", values := ["a"], into := some "X1" },
               { qualifier := some "IN", values := ["b"], into := some "X2" },
               { qualifier := some "IN", values := ["c"], into := some "X3" } ],
    store := "sqlite" }

/-- A press state with no suppression filters over a one-column table. -/
def c2Press : SPress :=
  { idataset := "ds", tablename := "t", columns := ["v"], filters := [] }

/-- Two meta-table projections over two categories. -/
def c2Proj : List Projection :=
  [ { name := "v", applyExpr := "'x' AS v", label := "generalize.a",
      onV := some "k IN ('1')" },
    { name := "v", applyExpr := "'y' AS v", label := "generalize.b",
      onV := some "k IN ('2')" } ]

/-- Two projections whose first `sqlExpression` collides with the name of the
second column, so the in-place substitution of `Press.to_sql` aliases. -/
def c3Info : List Projection :=
  [ { name := "a", applyExpr := "b", label := "generalize.x" },
    { name := "b", applyExpr := "X", label := "generalize.y" } ]

/-- A row-mode suppress citation on the bigquery profile whose condition
names the cataloged REGEXP template, carrying qualifier `IN`. -/
def c4Args : SArgs :=
  { rules := [ { applyFn := some "REGEXP", values := ["x"] } ],
    label := "suppress.demo", fields := [], store := "bigquery",
    onA := some "col", qualifier := "IN" }

/-- The cached rule definition of the claim's reference-resolution example. -/
def c5RaceDef : Val :=
  Val.vdict [ ("values", Val.vlist ["W", "B"]),
              ("qualifier", Val.vstr "IN"),
              ("into", Val.vstr "OTHER") ]

/-- The rule cache `{generalize: {race: ...}}` of the example. -/
def c5Cache : List (String × List (String × Val)) :=
  [ ("generalize", [ ("race", c5RaceDef) ]) ]

/-- The citation `{rules: "@generalize.race", fields: ["race"]}`. -/
def c5Row : List (String × Val) :=
  [ ("rules", Val.vstr "@generalize.race"), ("fields", Val.vlist ["race"]) ]

/-- A row-mode inline suppress citation on an uncataloged store name. -/
def c6SArgs : SArgs :=
  { rules := [ { values := ["v1"] } ], label := "suppress.demo",
    fields := [], store := "oracle", onA := some "col", qualifier := "" }

/-- A rule cache holding one generalize rule `race`. -/
def c7Cache : List (String × List (String × Val)) :=
  [ ("generalize", [ ("race", Val.vstr "cached") ]) ]

/-- A citation naming a ruleId absent from the cache: fails validation. -/
def c7RowBad : List (String × Val) :=
  [ ("rules", Val.vstr "@generalize.unknown"), ("into", Val.vstr "x") ]

/-- A well-formed citation naming the cached rule: passes validation. -/
def c7RowGood : List (String × Val) :=
  [ ("rules", Val.vstr "@generalize.race"), ("into", Val.vstr "OTHER"),
    ("fields", Val.vlist ["race"]) ]

/-- A generalize citation resolved in self-contained mode: dotless label and
no condition list. -/
def c10GArgs : GArgs :=
  { fields := some ["x"], label := "generalize", rules := [], store := "sqlite" }

/-- A row-mode inline suppress citation on the bigquery profile whose
condition names no cataloged function template. -/
def c4WitnessArgs : SArgs :=
  { rules := [ { values := ["v1"] } ], label := "suppress.demo", fields := [],
    store := "bigquery", onA := some "col", qualifier := "" }

/-- A dotless-label generalize citation carrying one condition. -/
def c10WitnessGArgs : GArgs :=
  { fields := some ["x"], label := "generalize", store := "sqlite",
    rules := [ { qualifier := some "IN", values := ["a"], into := some "O" } ] }

/-- A dotless-label column-mode suppress citation. -/
def c10WitnessSArgs : SArgs :=
  { label := "suppress", fields := ["ssn"], onA := none }

/-! ### Helper lemmas -/

lemma lookup_append_left {β : Type} {l1 : List (String × β)} (l2 : List (String × β))
    {k : String} {v : β} (h : List.lookup k l1 = some v) :
    List.lookup k (l1 ++ l2) = some v := by
  rw [List.lookup_append, h]
  rfl

lemma foldl_invariant {α β : Type} (P : α → Prop) (f : α → β → α) :
    ∀ (l : List β) (init : α), P init → (∀ a b, b ∈ l → P a → P (f a b)) →
      P (l.foldl f init)
  | [], _, h0, _ => h0
  | b :: l, init, h0, hstep => by
    simp only [List.foldl_cons]
    exact foldl_invariant P f l (f init b) (hstep init b (by simp) h0)
      (fun a b2 hb2 ha => hstep a b2 (by simp [hb2]) ha)

lemma bind_err {α β : Type} (e : PyErr) (f : α → Except PyErr β) :
    (Except.error e >>= f) = Except.error e := rfl

lemma bind_ok_fun {α β : Type} (a : α) (f : α → Except PyErr β) :
    (Except.ok a >>= f) = f a := rfl

lemma isOk_bind_ok {α β : Type} (x : Except PyErr α) (f : α → β)
    (h : x.isOk = true) : (x >>= fun y => Except.ok (f y)).isOk = true := by
  cases x with
  | ok v => rfl
  | error e => simp [Except.isOk, Except.toBool] at h

lemma suppressRows_inline_isOk (args : SArgs) (onv q2 : String)
    (hon : args.onA = some onv)
    (hq : apply_filter (if args.qualifier == "" then "IN" else args.qualifier)
            = Except.ok q2) :
    ∀ (rules : List GRule) (last : Option SuppressionExp)
      (filters : Option (List SuppressionExp)),
      (suppressRows [] args rules last filters).isOk = true := by
  intro rules
  induction rules with
  | nil => intro last filters; rfl
  | cons r rest ih =>
    intro last filters
    unfold suppressRows
    simp only [List.lookup_nil, hon, hq, bind_ok_fun]
    exact ih _ _

lemma mapM_ok_fun {α β : Type} (g : α → β) :
    ∀ (l : List α), (l.mapM (fun x => (Except.ok (g x) : Except PyErr β)))
      = Except.ok (l.map g)
  | [] => rfl
  | a :: l => by
    rw [List.mapM_cons, mapM_ok_fun g l]
    rfl

lemma lookup_foldl_preserved (row : List (String × Val)) :
    ∀ (l : List (String × Val)) (p : List (String × Val)) (key : String) (v : Val),
      List.lookup key p = some v →
      List.lookup key (l.foldl (fun p kv =>
        if (List.lookup kv.1 p).isSome then p
        else p ++ [(kv.1, (List.lookup kv.1 row).getD (Val.vstr ""))]) p) = some v
  | [], _, _, _, h => h
  | kv :: l, p, key, v, h => by
    simp only [List.foldl_cons]
    apply lookup_foldl_preserved row l
    by_cases hk : (List.lookup kv.1 p).isSome = true
    · simp only [hk, if_true]
      exact h
    · simp only [hk, Bool.false_eq_true, if_false]
      exact lookup_append_left _ h

lemma foldlM_qStep_shape (rule_id : String)
    (cache : List (String × List (String × Val))) (p : Bool) :
    ∀ (entry : List (List (String × Val))) (acc : List Bool),
      (∃ e, entry.foldlM (qStep rule_id cache p) acc = Except.error e) ∨
      (∃ extra, entry.foldlM (qStep rule_id cache p) acc = Except.ok (acc ++ extra))
  | [], acc => Or.inr ⟨[], by simp; rfl⟩
  | row :: rest, acc => by
    rw [List.foldlM_cons]
    cases hrc : rowCheck rule_id cache p row with
    | error e =>
      refine Or.inl ⟨e, ?_⟩
      simp only [qStep]
      rw [hrc]
      rfl
    | ok r =>
      cases r with
      | none =>
        have hstep : qStep rule_id cache p acc row = Except.ok acc := by
          simp only [qStep]
          rw [hrc]
          rfl
        rw [hstep, bind_ok_fun]
        exact foldlM_qStep_shape rule_id cache p rest acc
      | some b =>
        have hstep : qStep rule_id cache p acc row = Except.ok (acc ++ [b]) := by
          simp only [qStep]
          rw [hrc]
          rfl
        rw [hstep, bind_ok_fun]
        rcases foldlM_qStep_shape rule_id cache p rest (acc ++ [b]) with
          ⟨e, he⟩ | ⟨extra, hok⟩
        · exact Or.inl ⟨e, by simpa using he⟩
        · refine Or.inr ⟨[b] ++ extra, ?_⟩
          simpa [List.append_assoc] using hok

lemma validate_drops_group (rule_id : String)
    (cache : List (String × List (String × Val))) :
    ∀ (entry : List (List (String × Val))) (acc : List Bool)
      (row : List (String × Val)), row ∈ entry →
      rowCheck rule_id cache ((List.lookup rule_id cache).isSome) row =
        Except.ok (some false) →
      (∃ e, entry.foldlM (qStep rule_id cache ((List.lookup rule_id cache).isSome))
        acc = Except.error e) ∨
      (∃ qs, entry.foldlM (qStep rule_id cache ((List.lookup rule_id cache).isSome))
        acc = Except.ok qs ∧ qs.all id = false)
  | [], _, _, hmem, _ => absurd hmem (List.not_mem_nil _)
  | r0 :: rest, acc, row, hmem, hbad => by
    rw [List.foldlM_cons]
    rcases List.mem_cons.mp hmem with heq | hmemrest
    · subst heq
      have hstep : qStep rule_id cache ((List.lookup rule_id cache).isSome) acc row =
          Except.ok (acc ++ [false]) := by
        simp only [qStep]
        rw [hbad]
        rfl
      rw [hstep, bind_ok_fun]
      rcases foldlM_qStep_shape rule_id cache ((List.lookup rule_id cache).isSome)
          rest (acc ++ [false]) with ⟨e, he⟩ | ⟨extra, hok⟩
      · exact Or.inl ⟨e, he⟩
      · refine Or.inr ⟨acc ++ [false] ++ extra, hok, ?_⟩
        have hfm : false ∈ acc ++ [false] ++ extra := by simp
        cases hall : (acc ++ [false] ++ extra).all id with
        | false => rfl
        | true =>
          have := List.all_eq_true.mp hall false hfm
          simp at this
    · cases hrc : rowCheck rule_id cache ((List.lookup rule_id cache).isSome) r0 with
      | error e =>
        refine Or.inl ⟨e, ?_⟩
        simp only [qStep]
        rw [hrc]
        rfl
      | ok r =>
        cases r with
        | none =>
          have hstep : qStep rule_id cache ((List.lookup rule_id cache).isSome)
              acc r0 = Except.ok acc := by
            simp only [qStep]
            rw [hrc]
            rfl
          rw [hstep, bind_ok_fun]
          exact validate_drops_group rule_id cache rest acc row hmemrest hbad
        | some b =>
          have hstep : qStep rule_id cache ((List.lookup rule_id cache).isSome)
              acc r0 = Except.ok (acc ++ [b]) := by
            simp only [qStep]
            rw [hrc]
            rfl
          rw [hstep, bind_ok_fun]
          exact validate_drops_group rule_id cache rest (acc ++ [b]) row hmemrest hbad

lemma contains_mem {α : Type} [BEq α] [LawfulBEq α] {l : List α} {a : α}
    (h : l.contains a = true) : a ∈ l := List.elem_iff.mp h

lemma indexOf_lt_len {α : Type} [BEq α] [LawfulBEq α] {a : α} :
    ∀ {l : List α}, a ∈ l → l.indexOf a < l.length := by
  intro l
  induction l with
  | nil => intro h; cases h
  | cons b t ih =>
    intro h
    rw [List.indexOf_cons]
    cases hba : b == a with
    | true => simp
    | false =>
      have hat : a ∈ t := by
        rcases List.mem_cons.mp h with heq | ht
        · subst heq
          simp at hba
        · exact ht
      simpa using Nat.succ_lt_succ (ih hat)

lemma shouldElse_eq (i : Nat) : ((i % 2 == 0) || (i % 3 != 0)) = !(i % 6 == 3) := by
  rcases Bool.eq_false_or_eq_true (i % 6 == 3) with h6 | h6 <;> rw [h6]
  · have h6p : i % 6 = 3 := by simpa using h6
    have h2 : ¬ i % 2 = 0 := by omega
    have h3 : i % 3 = 0 := by omega
    simp [h2, h3]
  · have h6p : ¬ i % 6 = 3 := by simpa using h6
    have hp : i % 2 = 0 ∨ ¬ i % 3 = 0 := by omega
    rcases hp with h2 | h3
    · simp [h2]
    · simp [h3]

lemma guard_flip (i : Nat) (t : String) :
    (if i % 2 == 0 || i % 3 != 0 then [t] else []) =
      (if i % 6 == 3 then [] else [t]) := by
  rw [shouldElse_eq]
  cases h : (i % 6 == 3) <;> rfl

lemma indexOf_append_cons {α : Type} [BEq α] [LawfulBEq α] (a : α) (rest : List α) :
    ∀ (pre : List α), a ∉ pre → (pre ++ a :: rest).indexOf a = pre.length
  | [], _ => by
    simp [List.indexOf_cons]
  | p :: t, h => by
    have hpa : (p == a) = false := by
      refine beq_eq_false_iff_ne.mpr ?_
      intro he
      exact h (by rw [← he]; exact List.mem_cons_self _ _)
    rw [List.cons_append, List.indexOf_cons, hpa]
    have := indexOf_append_cons a rest t (fun hm => h (List.mem_cons_of_mem _ hm))
    simp [this]

lemma genCondLoop_structure (synx : CondTokens) (prof : StoreProfile) (args : GArgs)
    (name x : String) (hlab : (pySplit args.label ".").get? 1 = some x) :
    ∀ (suf pre : List GRule), (pre ++ suf).Nodup →
      genCondLoop synx prof args name (pre ++ suf) suf =
        Except.ok (((suf.enumFrom pre.length).map (fun q =>
          genBranchStr synx prof args name q.2 ::
            (if q.1 % 6 == 3 then [] else [synx.elseTok]))).flatten)
  | [], pre, _ => by rfl
  | r :: rest, pre, hnd => by
    have hb : genBranch synx prof args name r =
        Except.ok (genBranchStr synx prof args name r) := by
      unfold genBranch logLabel
      rw [hlab]
      rfl
    have hnotmem : r ∉ pre := by
      intro hr
      exact List.disjoint_of_nodup_append hnd hr (List.mem_cons_self _ _)
    have hidx : (pre ++ r :: rest).indexOf r = pre.length :=
      indexOf_append_cons r rest pre hnotmem
    have hnd2 : ((pre ++ [r]) ++ rest).Nodup := by
      rw [List.append_assoc]
      simpa using hnd
    have hrec := genCondLoop_structure synx prof args name x hlab rest (pre ++ [r]) hnd2
    rw [List.append_assoc, List.singleton_append] at hrec
    unfold genCondLoop
    rw [hb, bind_ok_fun, hrec, bind_ok_fun, hidx]
    simp [guard_flip, List.enumFrom_cons, List.length_append]
    by_cases h6 : pre.length % 6 = 3
    · have h2 : ¬ pre.length % 2 = 0 := by omega
      have h3 : pre.length % 3 = 0 := by omega
      simp [h6, h2, h3]
    · have hp : pre.length % 2 = 0 ∨ ¬ pre.length % 3 = 0 := by omega
      simp [h6, hp]

/-! ### Claim C1 -/

/-- C1 counterexample: on a three-condition inline generalize citation, the
chain built by `Deid.generalize` carries an ELSE token after the branch at
1-based position 3 (both in the token list built by the rule loop and in
the assembled SQL, where the third branch is followed by ELSE before the
fall-through), while the claim's position rule says position 3 is
ELSE-less. -/
theorem c1_counterexample :
    generalize c1Args =
      Except.ok [ { name := "race",
                    applyExpr := "CASE WHEN  race IN ('a') THEN 'X1' ELSE CASE WHEN  race IN ('b') THEN 'X2' ELSE CASE WHEN  race IN ('c') THEN 'X3' ELSE race END END END AS race",
                    label := "generalize.race", onV := none } ] ∧
      genCondLoop sqliteTokens sqliteProfile c1Args "race" c1Args.rules c1Args.rules =
        Except.ok [ "CASE WHEN  race IN ('a') THEN 'X1'", "ELSE",
                    "CASE WHEN  race IN ('b') THEN 'X2'", "ELSE",
                    "CASE WHEN  race IN ('c') THEN 'X3'", "ELSE" ] ∧
      specElseRule 3 = false := ⟨by rfl, by rfl, by rfl⟩

/-- C1 (amended): the index `rules.index(rule)` that drives the ELSE
decision is 0-based, so for a duplicate-free condition list with a dotted
label the chain carries an ELSE after the branch at 0-based index `i`
exactly when `i % 6 ≠ 3`: ELSE-less branches sit at 0-based indices
3, 9, 15, …, that is 1-based positions 4, 10, 16, …. -/
theorem c1_amended (synx : CondTokens) (prof : StoreProfile) (args : GArgs)
    (name x : String) (hlab : (pySplit args.label ".").get? 1 = some x)
    (hnd : args.rules.Nodup) :
    genCondLoop synx prof args name args.rules args.rules =
      Except.ok (((args.rules.enumFrom 0).map (fun q =>
        genBranchStr synx prof args name q.2 ::
          (if q.1 % 6 == 3 then [] else [synx.elseTok]))).flatten) := by
  have := genCondLoop_structure synx prof args name x hlab args.rules []
    (by simpa using hnd)
  simpa using this

/-- C1 witness: the amended statement evaluated on the concrete
three-condition citation. -/
theorem c1_amended_witness :
    (pySplit "generalize.race" ".").get? 1 = some "race" ∧
      genCondLoop sqliteTokens sqliteProfile c1Args "race" c1Args.rules
          c1Args.rules =
        Except.ok (((c1Args.rules.enumFrom 0).map (fun q =>
          genBranchStr sqliteTokens sqliteProfile c1Args "race" q.2 ::
            (if q.1 % 6 == 3 then [] else [sqliteTokens.elseTok]))).flatten) :=
  ⟨by rfl,
    c1_amended sqliteTokens sqliteProfile c1Args "race" "race" (by rfl)
      (by decide)⟩

/-! ### Claim C2 -/

set_option maxRecDepth 8192 in
/-- C2 counterexample: a meta table with two categories and no suppression
filters.  The residual branch reads `WHERE k NOT IN ('1') k NOT IN ('2')`:
the negated category predicates are joined by a bare space, not by AND —
the whole output contains no `' AND '` at all — contradicting the claim
that the residual is an AND-conjunction whether or not filters exist. -/
theorem c2_counterexample :
    doSql c2Press c2Proj =
      "SELECT\t'x' AS v\tFROM \tds.t WHERE k IN ('1')\nUNION ALL\nSELECT\t'y' AS v\tFROM \tds.t WHERE k IN ('2')\nUNION ALL\nSELECT\tv\tFROM \tds.t WHERE k NOT IN ('1') k NOT IN ('2')" ∧
      strIn " AND " (doSql c2Press c2Proj) = false := ⟨by rfl, by rfl⟩

/-- C2 (amended): for every meta compilation, `Press.do` emits one branch
per category plus exactly one residual branch with `IN` negated to
`NOT IN`, all joined by UNION ALL; the residual's negated predicates are
joined by `' AND '` when suppression filters exist and by a single space
when none do. -/
theorem c2_amended (press : SPress) (p : List Projection)
    (h : isMetaOf p = true) :
    doSql press p =
      String.intercalate "\nUNION ALL\n"
        (((groupKeys (p.filter (fun c => c.onV.isSome))).map (fun k =>
            to_sql press (groupGet (p.filter (fun c => c.onV.isSome)) k ++
                p.filter (fun c => c.onV.isNone)) ++
              (if press.filters.isEmpty then " WHERE " else " AND ") ++ k)) ++
          [if press.filters.isEmpty
           then to_sql press (p.filter (fun c => c.onV.isNone)) ++ " WHERE " ++
             pyReplace (String.intercalate " "
               (groupKeys (p.filter (fun c => c.onV.isSome)))) " IN " " NOT IN "
           else to_sql press (p.filter (fun c => c.onV.isNone)) ++ " AND " ++
             pyReplace (String.intercalate " AND "
               (groupKeys (p.filter (fun c => c.onV.isSome)))) " IN " " NOT IN "]) := by
  have hw : strIn " AND " " WHERE " = false := by decide
  have ha : strIn " AND " " AND " = true := by decide
  unfold doSql
  rw [h]
  cases hf : press.filters.isEmpty with
  | true => simp [hf, hw]
  | false => simp [hf, ha]

/-- C2 witness: the amended statement evaluated on the two-category meta
table with no filters. -/
theorem c2_amended_witness :
    isMetaOf c2Proj = true ∧
      doSql c2Press c2Proj =
        String.intercalate "\nUNION ALL\n"
          (((groupKeys (c2Proj.filter (fun c => c.onV.isSome))).map (fun k =>
              to_sql c2Press (groupGet (c2Proj.filter (fun c => c.onV.isSome)) k ++
                  c2Proj.filter (fun c => c.onV.isNone)) ++
                (if c2Press.filters.isEmpty then " WHERE " else " AND ") ++ k)) ++
            [if c2Press.filters.isEmpty
             then to_sql c2Press (c2Proj.filter (fun c => c.onV.isNone)) ++ " WHERE " ++
               pyReplace (String.intercalate " "
                 (groupKeys (c2Proj.filter (fun c => c.onV.isSome)))) " IN " " NOT IN "
             else to_sql c2Press (c2Proj.filter (fun c => c.onV.isNone)) ++ " AND " ++
               pyReplace (String.intercalate " AND "
                 (groupKeys (c2Proj.filter (fun c => c.onV.isSome)))) " IN " " NOT IN "]) :=
  ⟨by rfl, c2_amended c2Press c2Proj (by rfl)⟩

/-! ### Claim C3 -/

/-- C3 counterexample: on schema `[a, b]`, a projection for `a` whose
sqlExpression is the bare name `b` makes `fields.index` later resolve `b`
to the already-rewritten slot 0, so column `a`'s slot ends as the second
projection's expression `X` — neither the raw name `a` nor `a`'s own
projection's expression `b` — refuting "every schema column appears either
replaced by *its* FieldProjection's sqlExpression or passed through". -/
theorem c3_counterexample :
    toSqlFields ["a", "b"] c3Info = ["X", "b"] ∧ "X" ≠ "a" ∧ "X" ≠ "b" :=
  ⟨by rfl, by decide, by decide⟩

/-- C3 (amended): the substitution loops of `Press.to_sql` only overwrite
slots in place, so the assembled projection list always has exactly as many
entries as the schema column list, and every entry is either the raw column
name at that position or the sqlExpression of *some* input projection (not
necessarily the one named after that column). -/
theorem c3_amended (columns : List String) (info : List Projection) (i : Nat)
    (h : i < columns.length) :
    (toSqlFields columns info).length = columns.length ∧
      ((toSqlFields columns info).getD i "" = columns.getD i "" ∨
        (toSqlFields columns info).getD i "" ∈ info.map (fun r => r.applyExpr)) := by
  have key : (toSqlFields columns info).length = columns.length ∧
      ∀ j, j < columns.length →
        ((toSqlFields columns info)[j]? = columns[j]? ∨
          ∃ row, row ∈ info ∧ (toSqlFields columns info)[j]? = some row.applyExpr) := by
    unfold toSqlFields
    refine foldl_invariant (fun fields => fields.length = columns.length ∧
      ∀ j, j < columns.length → (fields[j]? = columns[j]? ∨
        ∃ row, row ∈ info ∧ fields[j]? = some row.applyExpr)) _ _ columns
      ⟨rfl, fun j _ => Or.inl rfl⟩ ?_
    intro fields rid _ hP
    refine foldl_invariant (fun flds => flds.length = columns.length ∧
      ∀ j, j < columns.length → (flds[j]? = columns[j]? ∨
        ∃ row, row ∈ info ∧ flds[j]? = some row.applyExpr)) _ info fields hP ?_
    intro flds row hrmem hPf
    by_cases hcond : (!strIn rid row.label || !flds.contains row.name) = true
    · rw [if_pos hcond]
      exact hPf
    · rw [if_neg hcond]
      have h2 : flds.contains row.name = true := by
        cases hc : flds.contains row.name with
        | true => rfl
        | false => exact absurd (by rw [hc]; simp) hcond
      have hidx : flds.indexOf row.name < flds.length :=
        indexOf_lt_len (contains_mem h2)
      constructor
      · rw [List.length_set]
        exact hPf.1
      · intro j hj
        by_cases hje : flds.indexOf row.name = j
        · right
          refine ⟨row, hrmem, ?_⟩
          rw [← hje, List.getElem?_set_self hidx]
        · rcases hPf.2 j hj with heq | ⟨row2, hm2, heq2⟩
          · left
            rw [List.getElem?_set_ne hje, heq]
          · right
            exact ⟨row2, hm2, by rw [List.getElem?_set_ne hje, heq2]⟩
  refine ⟨key.1, ?_⟩
  rcases key.2 i h with heq | ⟨row, hrmem, heq⟩
  · left
    simp [List.getD_eq_getElem?_getD, heq]
  · right
    have hv : (toSqlFields columns info).getD i "" = row.applyExpr := by
      simp [List.getD_eq_getElem?_getD, heq]
    rw [hv]
    exact List.mem_map_of_mem _ hrmem

/-- C3 witness: the amended statement evaluated at slot 0 of the aliasing
two-column example. -/
theorem c3_amended_witness :
    0 < 2 ∧
      ((toSqlFields ["a", "b"] c3Info).length = 2 ∧
        ((toSqlFields ["a", "b"] c3Info).getD 0 "" = (["a", "b"]).getD 0 "" ∨
          (toSqlFields ["a", "b"] c3Info).getD 0 "" ∈
            c3Info.map (fun r => r.applyExpr))) :=
  ⟨by decide, c3_amended ["a", "b"] c3Info 0 (by decide)⟩

/-! ### Claim C4 -/

/-- C4 counterexample: a row-mode suppress rule on the bigquery profile
whose condition names the cataloged REGEXP template, with qualifier `IN`.
The appended filter ends in the *unchanged* qualifier `IN`, although the
fixed inversion table maps `IN` to `NOT IN`: the function-template path
never applies the inversion. -/
theorem c4_counterexample :
    suppress (some []) c4Args =
      Except.ok ([], some [ { filter := "REGEXP_CONTAINS (LOWER(col), LOWER('x')) IN",
                              label := "suppress.demo" } ]) ∧
      apply_filter "IN" = Except.ok "NOT IN" := ⟨by rfl, by rfl⟩

/-- C4 (amended): the fixed-table inversion is applied only in the inline
on-IN-values path, where an empty qualifier is first defaulted to `IN` (so
an absent qualifier maps to `NOT IN`, never to `IS FALSE`); the resulting
`{predicateExpression, label}` entry is appended to the shared
SuppressionFilter sequence without replacing prior entries.  In the
function-template path the qualifier is appended unchanged (shown by the
counterexample). -/
theorem c4_amended (sargs : SArgs) (filters : Option (List SuppressionExp))
    (r : GRule) (onv q2 : String)
    (hrules : sargs.rules = [r])
    (hon : sargs.onA = some onv)
    (htm : List.lookup (r.applyFn.getD "") (applyFnTable sargs.store) = none)
    (hq : apply_filter (if sargs.qualifier == "" then "IN" else sargs.qualifier)
            = Except.ok q2) :
    suppress filters sargs =
      Except.ok ([], some ((filters.getD []) ++
        [ { filter := String.intercalate " "
              [onv, q2, "('" ++ String.intercalate "', '" r.values ++ "')"],
            label := sargs.label } ])) := by
  unfold suppress
  rw [hrules]
  simp only [hon, Option.isNone_some, Bool.and_false, Bool.false_eq_true,
    if_false]
  unfold suppressRows
  simp only [htm, hon, hq, bind_ok_fun]
  unfold suppressRows appendFilter
  rfl

/-- C4 witness: the amended statement evaluated on an inline citation with
an empty qualifier, which is inverted to `NOT IN`. -/
theorem c4_amended_witness :
    List.lookup "" (applyFnTable "bigquery") = none ∧
      suppress (some []) c4WitnessArgs =
        Except.ok ([], some ((( some ([] : List SuppressionExp)).getD []) ++
          [ { filter := String.intercalate " "
                ["col", "NOT IN", "('" ++ String.intercalate "', '" ["v1"] ++ "')"],
              label := "suppress.demo" } ])) :=
  ⟨by rfl,
    c4_amended c4WitnessArgs (some []) { values := ["v1"] } "col" "NOT IN"
      (by rfl) (by rfl) (by rfl) (by rfl)⟩

/-! ### Claim C5 -/

/-- C5: when a citation `@id.key` resolves against the RuleCache, the
resolved record's `rules` entry is the cached definition and its label is
`id.key`; the copy loop `p[key] = p.get(key, row.get(key, ''))` never
overwrites these already-present keys with the row's own values
(first-set-wins). -/
theorem c5_first_set_wins (rule_id : String) (row : List (String × Val))
    (cache : List (String × List (String × Val)))
    (s i k : String) (inner : List (String × Val)) (v : Val)
    (hrow : List.lookup "rules" row = some (Val.vstr s))
    (hcite : parseCite s = some (i, k))
    (hi : (i != "") = true) (hk : (k != "") = true)
    (hcache : List.lookup i cache = some inner)
    (hinner : List.lookup k inner = some v) :
    resolvedLookup "rules" (Parse_init rule_id row cache) = some v ∧
      resolvedLookup "label" (Parse_init rule_id row cache) =
        some (Val.vstr (i ++ "." ++ k)) := by
  have hps : Parse_init rule_id row cache = Except.ok
      (row.foldl (fun p kv =>
        if (List.lookup kv.1 p).isSome then p
        else p ++ [(kv.1, (List.lookup kv.1 row).getD (Val.vstr ""))])
        [("label", Val.vstr (i ++ "." ++ k)), ("rules", v)]) := by
    unfold Parse_init
    simp only [hrow, Option.getD_some, bind_ok_fun, hcite, hi, hk,
      Bool.and_self, if_true, hcache, hinner]
    rfl
  rw [hps]
  exact ⟨lookup_foldl_preserved row row _ "rules" v (by rfl),
    lookup_foldl_preserved row row _ "label" _ (by rfl)⟩

/-- C5 witness: the claim's concrete example — cache
`{generalize: {race: {values: [W, B], qualifier: IN, into: OTHER}}}` and
citation `{rules: "@generalize.race", fields: [race]}` — resolves to the
cached definition verbatim under `rules`, with label `generalize.race`. -/
theorem c5_witness :
    resolvedLookup "rules" (Parse_init "generalize" c5Row c5Cache) = some c5RaceDef ∧
      resolvedLookup "label" (Parse_init "generalize" c5Row c5Cache) =
        some (Val.vstr ("generalize" ++ "." ++ "race")) :=
  c5_first_set_wins "generalize" c5Row c5Cache "@generalize.race" "generalize"
    "race" [("race", c5RaceDef)] c5RaceDef (by rfl) (by rfl) (by rfl) (by rfl)
    (by rfl) (by rfl)

/-! ### Claim C6 -/

/-- C6 counterexample: on the uncataloged profile name `oracle`, the
row-mode suppress handler completes normally — returning an appended
filter, with no error of any kind — because
`store_syntax.get(store_id, {})` silently yields an empty function-template
table; compilation does not fail with a ConfigurationError (no such error
exists in the code). -/
theorem c6_counterexample :
    suppress (some []) c6SArgs =
      Except.ok ([], some [ { filter := "col NOT IN ('v1')",
                              label := "suppress.demo" } ]) ∧
      List.lookup "oracle" storeProfiles = none := ⟨by rfl, by rfl⟩

/-- C6 (amended): for an uncataloged profile name, `Deid.generalize` raises
an `AttributeError` (the `.get` fallback is the *string* `'sqlite'`, which
has no `.get`), while `Deid.suppress` silently proceeds with an empty
function-template table and completes in the inline path. -/
theorem c6_amended (store : String) (gargs : GArgs) (sargs : SArgs)
    (filters : Option (List SuppressionExp)) (onv q2 : String)
    (hcat : List.lookup store storeProfiles = none)
    (hg : gargs.store = store) (hs : sargs.store = store)
    (hon : sargs.onA = some onv)
    (hq : apply_filter (if sargs.qualifier == "" then "IN" else sargs.qualifier)
            = Except.ok q2) :
    generalize gargs = Except.error PyErr.attributeError ∧
      (suppress filters sargs).isOk = true := by
  have htm : applyFnTable sargs.store = [] := by
    unfold applyFnTable
    rw [hs, hcat]
  constructor
  · unfold generalize
    rw [hg, hcat]
  · unfold suppress
    rw [htm]
    simp only [hon, Option.isNone_some, Bool.and_false, Bool.false_eq_true,
      if_false]
    exact isOk_bind_ok _ _ (suppressRows_inline_isOk sargs onv q2 hon hq _ _ _)

/-- C6 witness: the amended statement on the concrete store name
`oracle`. -/
theorem c6_amended_witness :
    List.lookup "oracle" storeProfiles = none ∧
      (generalize { store := "oracle" } = Except.error PyErr.attributeError ∧
        (suppress (some []) c6SArgs).isOk = true) :=
  ⟨by rfl,
    c6_amended "oracle" { store := "oracle" } c6SArgs (some []) "col" "NOT IN"
      (by rfl) (by rfl) (by rfl) (by rfl) (by rfl)⟩

/-! ### Claim C7 -/

/-- C7 counterexample: an entry holding one citation that fails validation
(`@generalize.unknown`, whose key is absent from the cache) next to one
that passes (`@generalize.race`, shown valid by the second conjunct).
`Deid.validate` returns `None` for the whole entry, so `Deid.apply` drops
the entire rule group — the valid citation is not resolved or handled. -/
theorem c7_counterexample :
    deidValidate "generalize" c7Cache [c7RowBad, c7RowGood] = Except.ok none ∧
      rowCheck "generalize" c7Cache true c7RowGood = Except.ok (some true) :=
  ⟨by rfl, by rfl⟩

/-- C7 (amended): `Rules.validate` requires `sum(q) == len(q)`, so a single
citation whose check contributes `False` makes `Deid.validate` yield no
payload for the *entire* RuleType group — every citation of that group is
dropped together, not just the failing one (other RuleTypes are
unaffected, since `Deid.apply` validates each group separately). -/
theorem c7_amended (rule_id : String)
    (cache : List (String × List (String × Val)))
    (entry : List (List (String × Val))) (row : List (String × Val))
    (hmem : row ∈ entry)
    (hbad : rowCheck rule_id cache ((List.lookup rule_id cache).isSome) row =
      Except.ok (some false)) :
    validatePayload (deidValidate rule_id cache entry) = none := by
  unfold deidValidate rulesValidate
  rcases validate_drops_group rule_id cache entry [] row hmem hbad with
    ⟨e, he⟩ | ⟨qs, hok, hall⟩
  · simp [he, bind_err, validatePayload]
  · simp [hok, hall, bind_ok_fun, validatePayload]

/-- C7 witness: the amended statement on the concrete mixed entry. -/
theorem c7_amended_witness :
    c7RowBad ∈ [c7RowBad, c7RowGood] ∧
      validatePayload (deidValidate "generalize" c7Cache [c7RowBad, c7RowGood])
        = none :=
  ⟨List.mem_cons_self _ _,
    c7_amended "generalize" c7Cache [c7RowBad, c7RowGood] c7RowBad
      (List.mem_cons_self _ _) (by rfl)⟩

/-! ### Claim C8 -/

/-- C8: with an empty accumulated SuppressionFilter sequence, `Deid.shift`
returns an empty projection list for every field list and rule template —
a no-op performing no field transformation. -/
theorem c8_shift_guard (filters : Option (List SuppressionExp)) (args : ShArgs)
    (h : filters.getD [] = []) : shift filters args = [] := by
  unfold shift
  rw [h]
  rfl

/-- C8 witness: the guard evaluated on a concrete field list and shift
template with no accumulated filters. -/
theorem c8_shift_guard_witness :
    (none : Option (List SuppressionExp)).getD [] = [] ∧
      shift none { fields := ["dob"], rules := "shifted(:FIELD) AS dob" } = [] :=
  ⟨rfl, c8_shift_guard none { fields := ["dob"], rules := "shifted(:FIELD) AS dob" } rfl⟩

/-! ### Claim C9 -/

/-- C9: `Press.initialize` raises `AttributeError` on every invocation and
can never return normally — with the base-class `get` by calling
`.columns` on `None`, and with any overriding `get` by reading the
never-assigned attribute `self.deid_ruls` before the filtering of default
suppression filters completes. -/
theorem c9_initialize_always_raises (getResult : Option (List String)) :
    pressInitialize getResult = Except.error PyErr.attributeError := by
  cases getResult <;> rfl

/-! ### Claim C10 -/

/-- C10 counterexample: a resolved generalize record with the dotless label
`generalize` but no condition list returns a projection normally — the
logging step that indexes `label.split('.')[1]` is inside the per-condition
loop, so it is never reached — refuting "for every resolved parameter
record whose label contains no dot, the handler raises IndexError instead
of returning projections". -/
theorem c10_counterexample :
    generalize c10GArgs =
      Except.ok [ { name := "x", applyExpr := "x AS x", label := "generalize",
                    onV := none } ] := by rfl

/-- C10 (amended): with a dotless label, `Deid.generalize` raises
`IndexError` in its logging step whenever it processes at least one
condition on at least one field (on a cataloged store), and the
column-mode `Deid.suppress` raises `IndexError` whenever it runs at all
(its trailing log executes for every non-empty field list). -/
theorem c10_amended (gargs : GArgs) (prof : StoreProfile) (sargs : SArgs)
    (filters : Option (List SuppressionExp))
    (r : GRule) (rs : List GRule) (f : String) (fs : List String)
    (sf : String) (sfs : List String)
    (hstore : List.lookup gargs.store storeProfiles = some prof)
    (hglab : (pySplit gargs.label ".").get? 1 = none)
    (hrules : gargs.rules = r :: rs)
    (hfields : gargs.fields.getD [gargs.value_field] = f :: fs)
    (hsf : sargs.fields = sf :: sfs)
    (hson : sargs.onA = none)
    (hslab : (pySplit sargs.label ".").get? 1 = none) :
    generalize gargs = Except.error PyErr.indexError ∧
      suppress filters sargs = Except.error PyErr.indexError := by
  have hlog : logLabel gargs.label = Except.error PyErr.indexError := by
    unfold logLabel
    rw [hglab]
  have hslog : logLabel sargs.label = Except.error PyErr.indexError := by
    unfold logLabel
    rw [hslab]
  constructor
  · have hgf : genField prof.cond prof gargs f = Except.error PyErr.indexError := by
      unfold genField genCondLoop
      rw [hrules]
      unfold genCondLoop genBranch
      rw [hlog]
      rfl
    unfold generalize
    rw [hstore]
    simp only []
    rw [hfields, List.mapM_cons, hgf]
    rfl
  · have hsc : suppressCols sargs = Except.error PyErr.indexError := by
      unfold suppressCols
      rw [hsf]
      cases hr : sargs.rules with
      | nil =>
        rw [List.mapM_cons]
        simp only [hr, List.isEmpty_nil, if_true, hslog, bind_err]
      | cons rr rrs =>
        simp only [hr, List.isEmpty_cons, Bool.false_eq_true, if_false,
          mapM_ok_fun, bind_ok_fun, hslog, bind_err]
    unfold suppress
    simp only [hsf, hson, List.isEmpty_cons, Bool.not_false, Option.isNone_none,
      Bool.and_true, if_true, hsc, bind_err]

/-- C10 witness: the amended statement on a dotless one-condition generalize
citation and a dotless column-mode suppress citation. -/
theorem c10_amended_witness :
    (pySplit "generalize" ".").get? 1 = none ∧
      (generalize c10WitnessGArgs = Except.error PyErr.indexError ∧
        suppress none c10WitnessSArgs = Except.error PyErr.indexError) :=
  ⟨by rfl,
    c10_amended c10WitnessGArgs sqliteProfile c10WitnessSArgs none
      { qualifier := some "IN", values := ["a"], into := some "O" } []
      "x" [] "ssn" []
      (by rfl) (by rfl) (by rfl) (by rfl) (by rfl) (by rfl) (by rfl)⟩
